import Mathlib

/-!
Verification of the shock-wave-counter strike-tally tool.

The development shallowly embeds the data-access layer
(`shock_wave_counter/database.py`), the application layer and the
command-line argument resolution (`shock_wave_counter/main.py`).

Modelling conventions:
  the SQLite table `strike_log` is a list of `StrikeEntry` records;
  SQL `SUM` over an empty row set yields `none` (SQL NULL), which the
  Python layer converts to `0`;
  SQL `TEXT` comparison (BINARY collation) is code-point lexicographic
  order, embedded as a boolean comparator on `List Char`;
  `LOWER` (SQLite) and `str.lower` (Python) are embedded as the
  ASCII case fold `Char.toLower` mapped over the characters;
  SQL `ORDER BY` is a sort by the embedded comparator, with SQL NULL
  ordering first under `ASC` as SQLite does;
  `DATE(entry_datetime, \x27localtime\x27)` depends on the ambient time
  zone, so it is an explicit function parameter `ld` mapping the stored
  timestamp text to an optional local calendar date (`none` models the
  NULL that SQLite produces on unparsable text).
-/

/-! ## Code-point lexicographic comparison of strings (SQLite BINARY order) -/

/-- Strict code-point lexicographic order on character lists. -/
def lexLt : List Char → List Char → Bool
  | _, [] => false
  | [], _ :: _ => true
  | a :: as, b :: bs => decide (a.toNat < b.toNat) || (a == b && lexLt as bs)

/-- Strict order on strings, as SQLite BINARY collation on text. -/
def strLt (s t : String) : Bool := lexLt s.data t.data

/-- Reflexive order on strings. -/
def strLe (s t : String) : Bool := strLt s t || s == t

/-- Strict order on optional strings with SQL NULL ordering first. -/
def optLt : Option String → Option String → Bool
  | none, none => false
  | none, some _ => true
  | some _, none => false
  | some s, some t => strLt s t

/-- Reflexive order on optional strings, NULL first. -/
def optLe (a b : Option String) : Bool := optLt a b || a == b

theorem lexLt_irrefl : ∀ as, lexLt as as = false
  | [] => rfl
  | a :: as => by simp [lexLt, lexLt_irrefl as]

theorem lexLt_trans : ∀ as bs cs, lexLt as bs = true → lexLt bs cs = true →
    lexLt as cs = true
  | _, [], _, h, _ => by simp [lexLt] at h
  | _, _ :: _, [], _, h => by simp [lexLt] at h
  | [], b :: bs, c :: cs, _, _ => by simp [lexLt]
  | a :: as, b :: bs, c :: cs, h₁, h₂ => by
    simp only [lexLt, Bool.or_eq_true, Bool.and_eq_true, decide_eq_true_eq,
      beq_iff_eq] at h₁ h₂ ⊢
    rcases h₁ with h₁ | ⟨rfl, h₁⟩
    · rcases h₂ with h₂ | ⟨rfl, h₂⟩
      · exact Or.inl (Nat.lt_trans h₁ h₂)
      · exact Or.inl h₁
    · rcases h₂ with h₂ | ⟨rfl, h₂⟩
      · exact Or.inl h₂
      · exact Or.inr ⟨rfl, lexLt_trans as bs cs h₁ h₂⟩

theorem charToNat_inj {a b : Char} (h : a.toNat = b.toNat) : a = b :=
  Char.ext (UInt32.ext h)

theorem lexLt_trichotomy : ∀ as bs,
    lexLt as bs = true ∨ as = bs ∨ lexLt bs as = true
  | [], [] => Or.inr (Or.inl rfl)
  | [], _ :: _ => Or.inl rfl
  | _ :: _, [] => Or.inr (Or.inr rfl)
  | a :: as, b :: bs => by
    rcases Nat.lt_trichotomy a.toNat b.toNat with h | h | h
    · exact Or.inl (by simp [lexLt, h])
    · have hab : a = b := charToNat_inj h
      subst hab
      rcases lexLt_trichotomy as bs with h' | h' | h'
      · exact Or.inl (by simp [lexLt, h'])
      · exact Or.inr (Or.inl (by rw [h']))
      · exact Or.inr (Or.inr (by simp [lexLt, h']))
    · exact Or.inr (Or.inr (by simp [lexLt, h]))

theorem lexLt_asymm : ∀ as bs, lexLt as bs = true → lexLt bs as = false := by
  intro as bs h
  by_contra hne
  have h' : lexLt bs as = true := by
    cases hx : lexLt bs as
    · exact absurd hx hne
    · rfl
  have := lexLt_trans as bs as h h'
  rw [lexLt_irrefl] at this
  exact Bool.false_ne_true this

theorem strLt_trans {s t u : String} (h₁ : strLt s t = true)
    (h₂ : strLt t u = true) : strLt s u = true :=
  lexLt_trans _ _ _ h₁ h₂

theorem strLt_asymm {s t : String} (h : strLt s t = true) :
    strLt t s = false :=
  lexLt_asymm _ _ h

theorem strLt_trichotomy (s t : String) :
    strLt s t = true ∨ s = t ∨ strLt t s = true := by
  rcases lexLt_trichotomy s.data t.data with h | h | h
  · exact Or.inl h
  · exact Or.inr (Or.inl (by cases s; cases t; exact congrArg String.mk (by simpa using h)))
  · exact Or.inr (Or.inr h)

theorem strLe_total (s t : String) : strLe s t = true ∨ strLe t s = true := by
  rcases strLt_trichotomy s t with h | h | h
  · exact Or.inl (by simp [strLe, h])
  · exact Or.inl (by simp [strLe, h])
  · exact Or.inr (by simp [strLe, h])

theorem strLe_trans {s t u : String} (h₁ : strLe s t = true)
    (h₂ : strLe t u = true) : strLe s u = true := by
  simp only [strLe, Bool.or_eq_true, beq_iff_eq] at h₁ h₂ ⊢
  rcases h₁ with h₁ | rfl
  · rcases h₂ with h₂ | rfl
    · exact Or.inl (strLt_trans h₁ h₂)
    · exact Or.inl h₁
  · exact h₂

theorem strLe_antisymm {s t : String} (h₁ : strLe s t = true)
    (h₂ : strLe t s = true) : s = t := by
  simp only [strLe, Bool.or_eq_true, beq_iff_eq] at h₁ h₂
  rcases h₁ with h₁ | rfl
  · rcases h₂ with h₂ | rfl
    · exact absurd h₂ (by simp [strLt_asymm h₁])
    · rfl
  · rfl

theorem optLt_trans {a b c : Option String} (h₁ : optLt a b = true)
    (h₂ : optLt b c = true) : optLt a c = true := by
  cases a <;> cases b <;> cases c <;> simp_all [optLt]
  exact strLt_trans h₁ h₂

theorem optLt_asymm {a b : Option String} (h : optLt a b = true) :
    optLt b a = false := by
  cases a <;> cases b <;> simp_all [optLt]
  exact strLt_asymm h

theorem optLt_trichotomy (a b : Option String) :
    optLt a b = true ∨ a = b ∨ optLt b a = true := by
  cases a <;> cases b <;> simp [optLt]
  exact strLt_trichotomy _ _

theorem optLe_total (a b : Option String) : optLe a b = true ∨ optLe b a = true := by
  rcases optLt_trichotomy a b with h | h | h
  · exact Or.inl (by simp [optLe, h])
  · exact Or.inl (by simp [optLe, h])
  · exact Or.inr (by simp [optLe, h])

theorem optLe_trans {a b c : Option String} (h₁ : optLe a b = true)
    (h₂ : optLe b c = true) : optLe a c = true := by
  simp only [optLe, Bool.or_eq_true, beq_iff_eq] at h₁ h₂ ⊢
  rcases h₁ with h₁ | rfl
  · rcases h₂ with h₂ | rfl
    · exact Or.inl (optLt_trans h₁ h₂)
    · exact Or.inl h₁
  · exact h₂

theorem optLe_antisymm {a b : Option String} (h₁ : optLe a b = true)
    (h₂ : optLe b a = true) : a = b := by
  simp only [optLe, Bool.or_eq_true, beq_iff_eq] at h₁ h₂
  rcases h₁ with h₁ | rfl
  · rcases h₂ with h₂ | rfl
    · exact absurd h₂ (by simp [optLt_asymm h₁])
    · rfl
  · rfl

/-! ## Case folding (Python str.lower / SQLite LOWER, ASCII letters) -/

/-- ASCII case fold of a string, the embedding of Python `str.lower` and
SQLite `LOWER` on the tag values this tool stores. -/
def strLower (s : String) : String := ⟨s.data.map Char.toLower⟩

/-- ASCII case fold applied under SQL NULL. -/
def optLower (t : Option String) : Option String := t.map strLower

theorem charToLower_idem (c : Char) : c.toLower.toLower = c.toLower := by
  unfold Char.toLower
  by_cases h : c.toNat ≥ 65 ∧ c.toNat ≤ 90
  · rw [if_pos h]
    obtain ⟨h₁, h₂⟩ := h
    have hval : (Char.ofNat (c.toNat + 32)).toNat = c.toNat + 32 := by
      set n := c.toNat with hn
      interval_cases n <;> decide
    rw [if_neg]
    rw [hval]
    omega
  · rw [if_neg h, if_neg h]

theorem strLower_idem (s : String) : strLower (strLower s) = strLower s := by
  unfold strLower
  cases s with
  | mk data =>
    simp only [List.map_map]
    congr 1
    apply List.map_congr_left
    intro a _
    exact charToLower_idem a

theorem strLower_ne_empty {s : String} (h : s ≠ "") : strLower s ≠ "" := by
  cases s with
  | mk data =>
    cases data with
    | nil => exact absurd rfl h
    | cons a as =>
      intro hc
      simp [strLower, String.ext_iff] at hc

/-! ## Data model: the strike_log table -/

/-- One row of the `strike_log` table. -/
structure StrikeEntry where
  id : Nat
  strikes_count : Int
  entry_datetime : String
  tag : Option String
deriving DecidableEq

/-- The database state: the append-only list of rows of `strike_log`. -/
abbrev DB := List StrikeEntry

/-- Next AUTOINCREMENT id: strictly greater than every existing id. -/
def nextId (db : DB) : Nat := (db.map (·.id)).foldr max 0 + 1

/-- `Database.add_strike_entry`: INSERT INTO strike_log. -/
def db_add_strike_entry (db : DB) (strikes_count : Int)
    (entry_datetime : String) (tag : Option String) : DB :=
  db ++ [⟨nextId db, strikes_count, entry_datetime, tag⟩]

/-- The WHERE clause shared by `get_total_strikes` and
`get_strike_details`: applied only when the Python-level `tag` argument
is truthy (present and non-empty), and comparing
`LOWER(tag) = lowered filter`; rows with NULL tag never match. -/
def tagFilter (tag : Option String) (db : DB) : DB :=
  match tag with
  | none => db
  | some t =>
    if t = "" then db
    else db.filter (fun e => optLower e.tag == some (strLower t))

/-- SQL `SUM` over a list of integers: NULL on the empty row set. -/
def sqlSum (l : List Int) : Option Int :=
  if l.isEmpty then none else some l.sum

/-- `Database.get_total_strikes`: SELECT SUM(strikes_count) with the
optional case-insensitive tag filter; the Python layer replaces the
NULL sum by 0. -/
def get_total_strikes (db : DB) (tag : Option String) : Int :=
  match sqlSum ((tagFilter tag db).map (·.strikes_count)) with
  | none => 0
  | some v => v

/-! ## Orders used by the queries -/

/-- ORDER BY tag (raw value, BINARY collation, NULL first) used by
`get_summary_by_tag`. -/
def RawTagOrder (a b : Option String) : Prop := optLe a b = true

instance : DecidableRel RawTagOrder :=
  fun a b => inferInstanceAs (Decidable (_ = true))

instance : IsTotal (Option String) RawTagOrder :=
  ⟨fun a b => optLe_total a b⟩

instance : IsTrans (Option String) RawTagOrder :=
  ⟨fun _ _ _ h₁ h₂ => optLe_trans h₁ h₂⟩

/-- A row of the `get_strike_details` result set:
(tag, entry_datetime, strikes_count). -/
abbrev DetailRow := Option String × String × Int

/-- ORDER BY LOWER(tag) ASC, entry_datetime DESC. -/
def tagDateLe (a b : DetailRow) : Bool :=
  optLt (optLower a.1) (optLower b.1) ||
    (optLower a.1 == optLower b.1 && strLe b.2.1 a.2.1)

/-- Relation form of `tagDateLe` for `List.insertionSort`. -/
def TagDateOrder (a b : DetailRow) : Prop := tagDateLe a b = true

instance : DecidableRel TagDateOrder :=
  fun a b => inferInstanceAs (Decidable (_ = true))

instance : IsTotal DetailRow TagDateOrder := by
  constructor
  intro a b
  unfold TagDateOrder tagDateLe
  rcases optLt_trichotomy (optLower a.1) (optLower b.1) with h | h | h
  · exact Or.inl (by simp [h])
  · rcases strLe_total b.2.1 a.2.1 with h' | h'
    · exact Or.inl (by simp [h, h'])
    · exact Or.inr (by simp [h, h'])
  · exact Or.inr (by simp [h])

instance : IsTrans DetailRow TagDateOrder := by
  constructor
  intro a b c h₁ h₂
  unfold TagDateOrder tagDateLe at h₁ h₂ ⊢
  simp only [Bool.or_eq_true, Bool.and_eq_true, beq_iff_eq] at h₁ h₂ ⊢
  rcases h₁ with h₁ | ⟨he₁, h₁⟩
  · rcases h₂ with h₂ | ⟨he₂, h₂⟩
    · exact Or.inl (optLt_trans h₁ h₂)
    · exact Or.inl (he₂ ▸ h₁)
  · rcases h₂ with h₂ | ⟨he₂, h₂⟩
    · exact Or.inl (he₁ ▸ h₂)
    · exact Or.inr ⟨he₁.trans he₂, strLe_trans h₂ h₁⟩

/-- ORDER BY DATE(entry_datetime, localtime) ASC, LOWER(tag) ASC, for a
given date-conversion function `ld` (NULL dates first, as SQLite). -/
def dateTagLe (ld : String → Option String) (a b : DetailRow) : Bool :=
  optLt (ld a.2.1) (ld b.2.1) ||
    (ld a.2.1 == ld b.2.1 && optLe (optLower a.1) (optLower b.1))

/-- Relation form of `dateTagLe`. -/
def DateTagOrder (ld : String → Option String) (a b : DetailRow) : Prop :=
  dateTagLe ld a b = true

instance (ld : String → Option String) : DecidableRel (DateTagOrder ld) :=
  fun a b => inferInstanceAs (Decidable (_ = true))

instance (ld : String → Option String) : IsTotal DetailRow (DateTagOrder ld) := by
  constructor
  intro a b
  unfold DateTagOrder dateTagLe
  rcases optLt_trichotomy (ld a.2.1) (ld b.2.1) with h | h | h
  · exact Or.inl (by simp [h])
  · rcases optLe_total (optLower a.1) (optLower b.1) with h' | h'
    · exact Or.inl (by simp [h, h'])
    · exact Or.inr (by simp [h, h'])
  · exact Or.inr (by simp [h])

instance (ld : String → Option String) : IsTrans DetailRow (DateTagOrder ld) := by
  constructor
  intro a b c h₁ h₂
  unfold DateTagOrder dateTagLe at h₁ h₂ ⊢
  simp only [Bool.or_eq_true, Bool.and_eq_true, beq_iff_eq] at h₁ h₂ ⊢
  rcases h₁ with h₁ | ⟨he₁, h₁⟩
  · rcases h₂ with h₂ | ⟨he₂, h₂⟩
    · exact Or.inl (optLt_trans h₁ h₂)
    · exact Or.inl (he₂ ▸ h₁)
  · rcases h₂ with h₂ | ⟨he₂, h₂⟩
    · exact Or.inl (he₁ ▸ h₂)
    · exact Or.inr ⟨he₁.trans he₂, optLe_trans h₁ h₂⟩

/-! ## The two remaining queries -/

/-- Per-tag sum of `strikes_count` over the rows whose stored tag equals
`t` exactly (SQL GROUP BY groups NULLs together). -/
def tagGroupSum (db : DB) (t : Option String) : Int :=
  ((db.filter (fun e => e.tag == t)).map (·.strikes_count)).sum

/-- `Database.get_summary_by_tag`: SELECT tag, SUM(strikes_count) GROUP
BY tag ORDER BY tag, then the Python loop accumulates the grand total by
adding up the group sums. -/
def get_summary_by_tag (db : DB) : List (Option String × Int) × Int :=
  let tags := List.insertionSort RawTagOrder ((db.map (·.tag)).dedup)
  let rows := tags.map (fun t => (t, tagGroupSum db t))
  (rows, (rows.map (·.2)).sum)

/-- `Database.get_strike_details`: SELECT tag, entry_datetime,
strikes_count with the optional tag filter and one of the two ORDER BY
clauses. `ld` is the ambient `DATE(entry_datetime, localtime)`
conversion. -/
def get_strike_details (ld : String → Option String) (db : DB)
    (tag : Option String) (sort_by_date_first : Bool) : List DetailRow :=
  let rows := (tagFilter tag db).map
    (fun e => (e.tag, e.entry_datetime, e.strikes_count))
  if sort_by_date_first then List.insertionSort (DateTagOrder ld) rows
  else List.insertionSort TagDateOrder rows

/-! ## Application layer (main.py App) -/

/-- Python truthiness of an optional string argument: present and
non-empty. -/
def truthy : Option String → Bool
  | none => false
  | some t => t ≠ ""

/-- `App.add_strike_entry`: validates the count, lowercases a truthy
session tag, inserts, and builds the confirmation message; a
non-positive count raises ValueError before any database access. -/
def app_add_strike_entry (db : DB) (count_to_add : Int)
    (session_tag : Option String) (now : String) :
    Except String (DB × String) :=
  if count_to_add ≤ 0 then
    Except.error "Strike count must be a positive integer."
  else
    let processed : Option String :=
      match session_tag with
      | some t => if t = "" then none else some (strLower t)
      | none => none
    let db2 := db_add_strike_entry db count_to_add now processed
    let message := "Successfully added " ++ toString count_to_add ++
      " strikes." ++
      (match processed with
       | some t => " with tag \x27" ++ t ++ "\x27"
       | none => "")
    Except.ok (db2, message)

/-- Dictionary lookup in the summary rows (Python `tag_summaries[tag]`). -/
def lookupCount (rows : List (Option String × Int)) (t : Option String) : Int :=
  match rows.find? (fun p => p.1 == t) with
  | some p => p.2
  | none => 0

/-- The sort key Python uses in `query_summary`:
`sorted(keys, key=lambda t: (t is None, t))`, i.e. ascending on the pair
(is-None, value), which places every tagged key before the untagged
key. -/
def pySummaryLe (a b : Option String) : Bool :=
  match a, b with
  | none, none => true
  | none, some _ => false
  | some _, none => true
  | some s, some t => strLe s t

/-- Relation form of `pySummaryLe`. -/
def PySummaryOrder (a b : Option String) : Prop := pySummaryLe a b = true

instance : DecidableRel PySummaryOrder :=
  fun a b => inferInstanceAs (Decidable (_ = true))

instance : IsTotal (Option String) PySummaryOrder := by
  constructor
  intro a b
  unfold PySummaryOrder pySummaryLe
  cases a <;> cases b <;> simp
  exact strLe_total _ _

instance : IsTrans (Option String) PySummaryOrder := by
  constructor
  intro a b c h₁ h₂
  unfold PySummaryOrder pySummaryLe at h₁ h₂ ⊢
  cases a <;> cases b <;> cases c <;> simp_all
  exact strLe_trans h₁ h₂

instance : IsAntisymm (Option String) PySummaryOrder := by
  constructor
  intro a b h₁ h₂
  unfold PySummaryOrder pySummaryLe at h₁ h₂
  cases a <;> cases b <;> simp_all
  exact strLe_antisymm h₁ h₂

/-- The line printed for one summary group. -/
def summaryGroupLine (rows : List (Option String × Int)) (t : Option String) :
    String :=
  match t with
  | none => "  Untagged: " ++ toString (lookupCount rows none) ++ " strikes"
  | some tg => "  Tag \x27" ++ tg ++ "\x27: " ++
      toString (lookupCount rows (some tg)) ++ " strikes"

/-- `App.query_summary`: the sequence of lines printed to stdout. -/
def query_summary_lines (db : DB) : List String :=
  let s := get_summary_by_tag db
  if s.1.isEmpty && s.2 == 0 then ["No strikes recorded yet."]
  else
    let sorted_tags := List.insertionSort PySummaryOrder (s.1.map (·.1))
    "Strike Summary:" :: sorted_tags.map (summaryGroupLine s.1) ++
      ["--------------------", "Grand Total: " ++ toString s.2 ++ " strikes"]

/-! ## Command resolver (main.py _parse_arguments) -/

/-- The argparse namespace after flag parsing, before the validation
chains of `_parse_arguments`. -/
structure Args where
  count : Bool
  summary : Bool
  detail : Bool
  by_date : Bool
  app_info : Bool
  filter_tag : Option String
  count_to_add : Option Int
  session_tag : Option String
  debug : Bool
deriving DecidableEq

/-- The five operation modes. -/
inductive Mode where
  | info_mode
  | detail
  | summary
  | count_total
  | add_entry
deriving DecidableEq

/-- `_parse_arguments` after argparse: mode resolution by precedence,
then the per-mode conflict checks; errors abort via `parser.error`. -/
def parse_arguments (a : Args) : Except String Mode := do
  let mode ←
    if a.app_info then pure Mode.info_mode
    else if a.detail then pure Mode.detail
    else if a.summary then pure Mode.summary
    else if a.count || truthy a.filter_tag then pure Mode.count_total
    else if a.count_to_add.isSome then pure Mode.add_entry
    else Except.error "<count_to_add> is required unless using --info, --count, --filter-tag, --summary, or --detail."
  match mode with
  | Mode.info_mode =>
    if a.count_to_add.isSome || a.session_tag.isSome || a.count ||
        a.summary || a.detail || a.filter_tag.isSome || a.by_date then
      Except.error "--info cannot be used with other operational arguments like <count_to_add>, [session_tag], --count, --summary, --detail, --filter-tag, or --by-date."
    else pure mode
  | Mode.add_entry =>
    if a.session_tag.isSome && a.count_to_add.isNone then
      Except.error "[session_tag] can only be used when <count_to_add> is also provided."
    else if a.count || a.summary || a.detail || truthy a.filter_tag ||
        a.by_date || a.app_info then
      Except.error "Operational flags like --count, --summary, --detail, --filter-tag, --by-date, --info cannot be used when <count_to_add> is provided."
    else pure mode
  | Mode.count_total =>
    if a.count_to_add.isSome || a.session_tag.isSome then
      Except.error "<count_to_add> and [session_tag] cannot be used with --count or --filter-tag."
    else if a.summary || a.detail || a.app_info || a.by_date then
      Except.error "--summary, --detail, --info, or --by-date cannot be used with --count or --filter-tag."
    else pure mode
  | Mode.summary =>
    if a.count_to_add.isSome || a.session_tag.isSome then
      Except.error "<count_to_add> and [session_tag] cannot be used with --summary."
    else if a.count || truthy a.filter_tag || a.detail || a.app_info ||
        a.by_date then
      Except.error "--count, --filter-tag, --detail, --info, or --by-date cannot be used with --summary."
    else pure mode
  | Mode.detail =>
    if a.count_to_add.isSome || a.session_tag.isSome then
      Except.error "<count_to_add> and [session_tag] cannot be used with --detail."
    else if a.count && !truthy a.filter_tag then
      Except.error "Explicit --count cannot be used with --detail. Use --filter-tag for filtering details."
    else if a.summary || a.app_info then
      Except.error "--summary or --info cannot be used with --detail."
    else pure mode

/-- Observable outcome of one process invocation: the exit status, the
database state afterwards, and what was written to stderr. -/
structure MainOutcome where
  exitCode : Nat
  db : DB
  stderr : Option String
deriving DecidableEq

/-- `main`: a usage error aborts inside argparse, whose `parser.error`
prints to stderr and exits the process with status 2; a ValueError from
the add path is caught, printed as `Error: ...` to stderr, and returns
exit code 1; the query modes only read the database and return 0. -/
def main_run (a : Args) (db : DB) (now : String) : MainOutcome :=
  match parse_arguments a with
  | Except.error e => ⟨2, db, some e⟩
  | Except.ok m =>
    match m with
    | Mode.add_entry =>
      match app_add_strike_entry db (a.count_to_add.getD 0) a.session_tag now with
      | Except.error e => ⟨1, db, some ("Error: " ++ e)⟩
      | Except.ok (db2, _) => ⟨0, db2, none⟩
    | _ => ⟨0, db, none⟩

/-! ## Helper lemmas -/

theorem optLt_irrefl (a : Option String) : optLt a a = false := by
  cases a
  · rfl
  · exact lexLt_irrefl _

/-- `get_total_strikes` always equals the plain sum over the filtered
rows: the NULL branch of SQL SUM coincides with the empty sum. -/
theorem get_total_eq_sum (db : DB) (tag : Option String) :
    get_total_strikes db tag = ((tagFilter tag db).map (·.strikes_count)).sum := by
  unfold get_total_strikes sqlSum
  cases h : (tagFilter tag db).map (·.strikes_count) with
  | nil => simp
  | cons x xs => simp

/-- Splitting a sum of counts along a boolean predicate. -/
theorem sum_counts_filter_partition (p : StrikeEntry → Bool) (l : DB) :
    ((l.filter p).map (·.strikes_count)).sum +
      ((l.filter (fun e => !(p e))).map (·.strikes_count)).sum =
    (l.map (·.strikes_count)).sum := by
  induction l with
  | nil => simp
  | cons x xs ih =>
    cases h : p x <;> simp [List.filter_cons, h] <;> omega

/-- The group sums over a duplicate-free list of tags covering every
entry add up to the total of all counts. -/
theorem sum_tagGroupSum (ts : List (Option String)) (l : DB)
    (hnd : ts.Nodup) (hcov : ∀ e ∈ l, e.tag ∈ ts) :
    (ts.map (tagGroupSum l)).sum = (l.map (·.strikes_count)).sum := by
  induction ts generalizing l with
  | nil =>
    have : l = [] := by
      cases l with
      | nil => rfl
      | cons e es => exact absurd (hcov e (by simp)) (by simp)
    subst this
    simp
  | cons t ts ih =>
    have hnd' : ts.Nodup := hnd.of_cons
    have htni : t ∉ ts := by
      intro hmem
      exact (List.nodup_cons.mp hnd).1 hmem
    set l' := l.filter (fun e => !(e.tag == t)) with hl'
    have hrest : (ts.map (tagGroupSum l)).sum = (ts.map (tagGroupSum l')).sum := by
      congr 1
      apply List.map_congr_left
      intro t' ht'
      have htt' : t' ≠ t := fun h => htni (h ▸ ht')
      unfold tagGroupSum
      have hf : List.filter (fun e => e.tag == t') l' =
          List.filter (fun e => e.tag == t') l := by
        rw [hl', List.filter_filter]
        apply List.filter_congr
        intro e _
        cases he : e.tag == t'
        · simp [he]
        · have her : e.tag = t' := by simpa using he
          simp [her, htt']
      rw [hf]
    have hcov' : ∀ e ∈ l', e.tag ∈ ts := by
      intro e he
      rw [hl', List.mem_filter] at he
      obtain ⟨hel, hne⟩ := he
      have := hcov e hel
      simp only [List.mem_cons] at this
      rcases this with h | h
      · exfalso
        rw [h] at hne
        simp at hne
      · exact h
    calc (List.map (tagGroupSum l) (t :: ts)).sum
        = tagGroupSum l t + (ts.map (tagGroupSum l)).sum := by simp
      _ = tagGroupSum l t + (ts.map (tagGroupSum l')).sum := by rw [hrest]
      _ = tagGroupSum l t + (l'.map (·.strikes_count)).sum := by rw [ih l' hnd' hcov']
      _ = (l.map (·.strikes_count)).sum := by
            rw [hl']
            exact sum_counts_filter_partition (fun e => e.tag == t) l

/-- The sorted duplicate-free tag list of `get_summary_by_tag` has no
duplicates. -/
theorem summary_tags_nodup (db : DB) :
    (List.insertionSort RawTagOrder ((db.map (·.tag)).dedup)).Nodup :=
  ((List.perm_insertionSort RawTagOrder ((db.map (·.tag)).dedup)).symm).nodup
    (List.nodup_dedup _)

/-- Every stored tag occurs in the sorted tag list of
`get_summary_by_tag`. -/
theorem summary_tags_cover (db : DB) :
    ∀ e ∈ db, e.tag ∈ List.insertionSort RawTagOrder ((db.map (·.tag)).dedup) := by
  intro e he
  rw [List.mem_insertionSort, List.mem_dedup]
  exact List.mem_map_of_mem _ he

/-- The grand total accumulated by `get_summary_by_tag` equals the
unfiltered total. -/
theorem grand_total_eq_total (db : DB) :
    (get_summary_by_tag db).2 = get_total_strikes db none := by
  unfold get_summary_by_tag
  simp only [List.map_map]
  rw [get_total_eq_sum]
  have : ((fun p : Option String × Int => p.2) ∘ fun t => (t, tagGroupSum db t))
      = tagGroupSum db := rfl
  rw [this, sum_tagGroupSum _ db (summary_tags_nodup db) (summary_tags_cover db)]
  rfl

/-- Claim C1: for every database state, the grand total returned by the
summary operation equals the unfiltered total `total(None)`, and the sum
of the per-tag values in the returned mapping equals that grand
total. -/
theorem summary_grand_total_consistent (db : DB) :
    (get_summary_by_tag db).2 = get_total_strikes db none ∧
    ((get_summary_by_tag db).1.map (·.2)).sum = (get_summary_by_tag db).2 := by
  constructor
  · exact grand_total_eq_total db
  · rfl

/-- Claim C9: for every database state and optional filter tag, the
total operation returns the integer sum of `strikes_count` over the
matching rows, and returns exactly 0 when no row matches, in particular
on the empty store. -/
theorem total_strikes_is_sum_matching (db : DB) (tag : Option String) :
    get_total_strikes db tag = ((tagFilter tag db).map (·.strikes_count)).sum ∧
    (tagFilter tag db = [] → get_total_strikes db tag = 0) ∧
    get_total_strikes [] tag = 0 := by
  refine ⟨get_total_eq_sum db tag, ?_, ?_⟩
  · intro h
    rw [get_total_eq_sum, h]
    rfl
  · rw [get_total_eq_sum]
    cases tag with
    | none => rfl
    | some t =>
      unfold tagFilter
      by_cases h : t = "" <;> simp [h]

/-- Witness for claim C9 at the empty store. -/
theorem total_strikes_is_sum_matching_witness :
    get_total_strikes [] none = 0 :=
  (total_strikes_is_sum_matching [] none).2.1 rfl

/-- Claim C10: empty-string tags are treated as absent throughout: the
add path with session tag "" behaves exactly as with no tag (in
particular the stored row has a NULL tag), and the filter "" applies no
filter in the total and details operations. -/
theorem empty_string_tag_is_absent (ld : String → Option String) (db : DB)
    (c : Int) (now : String) (b : Bool) :
    app_add_strike_entry db c (some "") now = app_add_strike_entry db c none now ∧
    (app_add_strike_entry db 1 (some "") now).toOption.map (fun p => p.1) =
      some (db_add_strike_entry db 1 now none) ∧
    get_total_strikes db (some "") = get_total_strikes db none ∧
    get_strike_details ld db (some "") b = get_strike_details ld db none b := by
  refine ⟨?_, ?_, ?_, ?_⟩
  · unfold app_add_strike_entry
    by_cases h : c ≤ 0 <;> simp [h]
  · unfold app_add_strike_entry
    norm_num
    exact ⟨"Successfully added " ++ toString (1 : Int) ++ " strikes.", rfl⟩
  · unfold get_total_strikes tagFilter
    simp
  · unfold get_strike_details tagFilter
    simp

/-- The argparse namespace of a plain add invocation:
`shock-wave-counter <count> [session_tag]`. -/
def addArgs (c : Int) (tag : Option String) : Args :=
  ⟨false, false, false, false, false, none, some c, tag, false⟩

/-- Claim C2: for every non-positive count and every database state, the
add-entry invocation fails validation: the ValueError is reported as
`Error: <message>` on stderr with exit code 1, and no write happens, so
the stored log and hence `total(None)` are unchanged. -/
theorem add_entry_nonpositive_no_write (db : DB) (now : String) (c : Int)
    (tag : Option String) (hc : c ≤ 0) :
    main_run (addArgs c tag) db now =
      ⟨1, db, some "Error: Strike count must be a positive integer."⟩ ∧
    (main_run (addArgs c tag) db now).db = db ∧
    get_total_strikes (main_run (addArgs c tag) db now).db none =
      get_total_strikes db none := by
  have hparse : parse_arguments (addArgs c tag) = Except.ok Mode.add_entry := by
    cases tag <;> rfl
  have hrun : main_run (addArgs c tag) db now =
      ⟨1, db, some "Error: Strike count must be a positive integer."⟩ := by
    unfold main_run
    rw [hparse]
    simp only [addArgs, Option.getD_some]
    unfold app_add_strike_entry
    rw [if_pos hc]
    rfl
  exact ⟨hrun, by rw [hrun], by rw [hrun]⟩

/-- Witness for claim C2 at count 0. -/
theorem add_entry_nonpositive_no_write_witness :
    main_run (addArgs 0 none) [] "2024-01-01T00:00:00+00:00" =
      ⟨1, [], some "Error: Strike count must be a positive integer."⟩ :=
  (add_entry_nonpositive_no_write [] "2024-01-01T00:00:00+00:00" 0 none
    (by decide)).1

/-- Claim C3: round-trip case-insensitivity. Inserting through the add
path with a non-empty tag T stores the lowercased tag; querying the
total or the details with any non-empty filter tag equal to T up to
ASCII case matches the inserted entry: the total grows by the inserted
count and the entry appears in the details result. -/
theorem tag_round_trip_case_insensitive (ld : String → Option String)
    (db : DB) (c : Int) (T T2 now : String) (b : Bool)
    (hT : T ≠ "") (hT2 : T2 ≠ "") (hlow : strLower T2 = strLower T)
    (hc : 0 < c) :
    (∃ msg, app_add_strike_entry db c (some T) now =
      Except.ok (db_add_strike_entry db c now (some (strLower T)), msg)) ∧
    get_total_strikes (db_add_strike_entry db c now (some (strLower T))) (some T2)
      = get_total_strikes db (some T2) + c ∧
    (some (strLower T), now, c) ∈
      get_strike_details ld (db_add_strike_entry db c now (some (strLower T)))
        (some T2) b := by
  have hmatches : (optLower (some (strLower T)) == some (strLower T2)) = true := by
    show (some (strLower (strLower T)) == some (strLower T2)) = true
    rw [strLower_idem, hlow]
    simp
  have hfilter : tagFilter (some T2)
      (db_add_strike_entry db c now (some (strLower T))) =
      tagFilter (some T2) db ++ [⟨nextId db, c, now, some (strLower T)⟩] := by
    simp only [tagFilter, db_add_strike_entry, if_neg hT2]
    rw [List.filter_append]
    congr 1
    simp only [List.filter_cons, List.filter_nil]
    rw [if_pos hmatches]
  refine ⟨?_, ?_, ?_⟩
  · simp only [app_add_strike_entry, if_neg (show ¬ c ≤ 0 by omega), if_neg hT]
    exact ⟨_, rfl⟩
  · rw [get_total_eq_sum, get_total_eq_sum, hfilter]
    simp
  · cases b
    · show _ ∈ List.insertionSort TagDateOrder
        ((tagFilter (some T2) (db_add_strike_entry db c now (some (strLower T)))).map
          (fun e => (e.tag, e.entry_datetime, e.strikes_count)))
      rw [List.mem_insertionSort, hfilter, List.map_append]
      apply List.mem_append_right
      simp
    · show _ ∈ List.insertionSort (DateTagOrder ld)
        ((tagFilter (some T2) (db_add_strike_entry db c now (some (strLower T)))).map
          (fun e => (e.tag, e.entry_datetime, e.strikes_count)))
      rw [List.mem_insertionSort, hfilter, List.map_append]
      apply List.mem_append_right
      simp

/-- Witness for claim C3: insert tag Foo, filter by FOO. -/
theorem tag_round_trip_case_insensitive_witness :
    get_total_strikes
      (db_add_strike_entry [] 1 "2024-01-01T00:00:00+00:00" (some (strLower "Foo")))
      (some "FOO") = get_total_strikes [] (some "FOO") + 1 :=
  (tag_round_trip_case_insensitive (fun _ => none) [] 1 "Foo" "FOO"
    "2024-01-01T00:00:00+00:00" false (by decide) (by decide) (by decide)
    (by decide)).2.1

theorem optLe_refl (a : Option String) : optLe a a = true := by
  simp [optLe]

theorem tagDateLe_tag_component {a b : DetailRow} (h : tagDateLe a b = true) :
    optLe (optLower a.1) (optLower b.1) = true := by
  simp only [tagDateLe, Bool.or_eq_true, Bool.and_eq_true, beq_iff_eq] at h
  rcases h with h | ⟨he, _⟩
  · simp [optLe, h]
  · rw [he]
    exact optLe_refl _

theorem tagDateLe_date_component {a b : DetailRow} (h : tagDateLe a b = true)
    (he : optLower a.1 = optLower b.1) : strLe b.2.1 a.2.1 = true := by
  simp only [tagDateLe, Bool.or_eq_true, Bool.and_eq_true, beq_iff_eq] at h
  rcases h with h | ⟨_, h⟩
  · rw [he, optLt_irrefl] at h
    exact absurd h (by simp)
  · exact h

theorem dateTagLe_date_component {ld : String → Option String} {a b : DetailRow}
    (h : dateTagLe ld a b = true) : optLe (ld a.2.1) (ld b.2.1) = true := by
  simp only [dateTagLe, Bool.or_eq_true, Bool.and_eq_true, beq_iff_eq] at h
  rcases h with h | ⟨he, _⟩
  · simp [optLe, h]
  · rw [he]
    exact optLe_refl _

theorem dateTagLe_tag_component {ld : String → Option String} {a b : DetailRow}
    (h : dateTagLe ld a b = true) (he : ld a.2.1 = ld b.2.1) :
    optLe (optLower a.1) (optLower b.1) = true := by
  simp only [dateTagLe, Bool.or_eq_true, Bool.and_eq_true, beq_iff_eq] at h
  rcases h with h | ⟨_, h⟩
  · rw [he, optLt_irrefl] at h
    exact absurd h (by simp)
  · exact h

/-- The result of `get_strike_details` in tag-then-date mode is sorted
by the ORDER BY comparator. -/
theorem details_sorted_tag_date (ld : String → Option String) (db : DB)
    (ftag : Option String) :
    List.Sorted TagDateOrder (get_strike_details ld db ftag false) :=
  List.sorted_insertionSort TagDateOrder _

/-- The result of `get_strike_details` in date-then-tag mode is sorted
by the ORDER BY comparator. -/
theorem details_sorted_date_tag (ld : String → Option String) (db : DB)
    (ftag : Option String) :
    List.Sorted (DateTagOrder ld) (get_strike_details ld db ftag true) :=
  List.sorted_insertionSort (DateTagOrder ld) _

/-- Claim C4: in `tag_then_date` order the details sequence is ordered
primarily by the lowercased tag ascending (SQL NULL, i.e. untagged,
being the least key, so untagged entries come first), within equal tag
keys the timestamps are descending (later timestamp first), and entries
with equal tag keys are contiguous. -/
theorem details_tag_then_date_order (ld : String → Option String) (db : DB)
    (ftag : Option String) (i j : Nat) (d : DetailRow)
    (hij : i < j) (hj : j < (get_strike_details ld db ftag false).length) :
    optLe (optLower ((get_strike_details ld db ftag false).getD i d).1)
      (optLower ((get_strike_details ld db ftag false).getD j d).1) = true ∧
    (optLower ((get_strike_details ld db ftag false).getD i d).1 =
        optLower ((get_strike_details ld db ftag false).getD j d).1 →
      strLe ((get_strike_details ld db ftag false).getD j d).2.1
        ((get_strike_details ld db ftag false).getD i d).2.1 = true) ∧
    (∀ k, i < k → k < j →
      optLower ((get_strike_details ld db ftag false).getD i d).1 =
        optLower ((get_strike_details ld db ftag false).getD j d).1 →
      optLower ((get_strike_details ld db ftag false).getD k d).1 =
        optLower ((get_strike_details ld db ftag false).getD i d).1) := by
  set L := get_strike_details ld db ftag false with hL
  have hp := List.pairwise_iff_getElem.mp (details_sorted_tag_date ld db ftag)
  rw [← hL] at hp
  have hi : i < L.length := Nat.lt_trans hij hj
  rw [List.getD_eq_getElem L d hi, List.getD_eq_getElem L d hj]
  have hij' : TagDateOrder L[i] L[j] := hp i j hi hj hij
  refine ⟨tagDateLe_tag_component hij', fun he => tagDateLe_date_component hij' he, ?_⟩
  intro k hik hkj he
  have hk : k < L.length := Nat.lt_trans hkj hj
  rw [List.getD_eq_getElem L d hk]
  have h1 := tagDateLe_tag_component (hp i k hi hk hik)
  have h2 := tagDateLe_tag_component (hp k j hk hj hkj)
  rw [← he] at h2
  exact optLe_antisymm h2 h1

/-- Witness for claim C4 on a two-entry store with one tag. -/
theorem details_tag_then_date_order_witness :
    (0 < 1 ∧ 1 < (get_strike_details (fun _ => none)
      [⟨1, 2, "2024-01-02T00:00:00+00:00", some "a"⟩,
       ⟨2, 3, "2024-01-01T00:00:00+00:00", some "a"⟩] none false).length) ∧
    optLe (optLower (((get_strike_details (fun _ => none)
      [⟨1, 2, "2024-01-02T00:00:00+00:00", some "a"⟩,
       ⟨2, 3, "2024-01-01T00:00:00+00:00", some "a"⟩] none false)).getD 0
        (none, "", 0)).1)
      (optLower (((get_strike_details (fun _ => none)
      [⟨1, 2, "2024-01-02T00:00:00+00:00", some "a"⟩,
       ⟨2, 3, "2024-01-01T00:00:00+00:00", some "a"⟩] none false)).getD 1
        (none, "", 0)).1) = true :=
  ⟨⟨by decide, by decide⟩,
    (details_tag_then_date_order (fun _ => none)
      [⟨1, 2, "2024-01-02T00:00:00+00:00", some "a"⟩,
       ⟨2, 3, "2024-01-01T00:00:00+00:00", some "a"⟩] none 0 1 (none, "", 0)
      (by decide) (by decide)).1⟩

/-- Claim C5: in `date_then_tag` order the details sequence is sorted
primarily by the local calendar date of the timestamp ascending, entries
with the same local date are contiguous, and within a date the
lowercased tags are ascending. `ld` is the ambient local-date
conversion applied to the stored timestamp text. -/
theorem details_date_then_tag_order (ld : String → Option String) (db : DB)
    (ftag : Option String) (i j : Nat) (d : DetailRow)
    (hij : i < j) (hj : j < (get_strike_details ld db ftag true).length) :
    optLe (ld ((get_strike_details ld db ftag true).getD i d).2.1)
      (ld ((get_strike_details ld db ftag true).getD j d).2.1) = true ∧
    (ld ((get_strike_details ld db ftag true).getD i d).2.1 =
        ld ((get_strike_details ld db ftag true).getD j d).2.1 →
      optLe (optLower ((get_strike_details ld db ftag true).getD i d).1)
        (optLower ((get_strike_details ld db ftag true).getD j d).1) = true) ∧
    (∀ k, i < k → k < j →
      ld ((get_strike_details ld db ftag true).getD i d).2.1 =
        ld ((get_strike_details ld db ftag true).getD j d).2.1 →
      ld ((get_strike_details ld db ftag true).getD k d).2.1 =
        ld ((get_strike_details ld db ftag true).getD i d).2.1) := by
  set L := get_strike_details ld db ftag true with hL
  have hp := List.pairwise_iff_getElem.mp (details_sorted_date_tag ld db ftag)
  rw [← hL] at hp
  have hi : i < L.length := Nat.lt_trans hij hj
  rw [List.getD_eq_getElem L d hi, List.getD_eq_getElem L d hj]
  have hij' : DateTagOrder ld L[i] L[j] := hp i j hi hj hij
  refine ⟨dateTagLe_date_component hij', fun he => dateTagLe_tag_component hij' he, ?_⟩
  intro k hik hkj he
  have hk : k < L.length := Nat.lt_trans hkj hj
  rw [List.getD_eq_getElem L d hk]
  have h1 := dateTagLe_date_component (hp i k hi hk hik)
  have h2 := dateTagLe_date_component (hp k j hk hj hkj)
  rw [← he] at h2
  exact optLe_antisymm h2 h1

/-- Witness for claim C5 on a two-entry store with two dates. -/
theorem details_date_then_tag_order_witness :
    (0 < 1 ∧ 1 < (get_strike_details (fun s => some s)
      [⟨1, 2, "2024-01-01T00:00:00+00:00", some "b"⟩,
       ⟨2, 3, "2024-01-02T00:00:00+00:00", some "a"⟩] none true).length) ∧
    optLe ((fun s => some s) (((get_strike_details (fun s => some s)
      [⟨1, 2, "2024-01-01T00:00:00+00:00", some "b"⟩,
       ⟨2, 3, "2024-01-02T00:00:00+00:00", some "a"⟩] none true)).getD 0
        (none, "", 0)).2.1)
      ((fun s => some s) (((get_strike_details (fun s => some s)
      [⟨1, 2, "2024-01-01T00:00:00+00:00", some "b"⟩,
       ⟨2, 3, "2024-01-02T00:00:00+00:00", some "a"⟩] none true)).getD 1
        (none, "", 0)).2.1) = true :=
  ⟨⟨by decide, by decide⟩,
    (details_date_then_tag_order (fun s => some s)
      [⟨1, 2, "2024-01-01T00:00:00+00:00", some "b"⟩,
       ⟨2, 3, "2024-01-02T00:00:00+00:00", some "a"⟩] none 0 1 (none, "", 0)
      (by decide) (by decide)).1⟩

/-- An argument list selecting two query modes at once
(`--summary --detail`). -/
def conflictingArgs : Args :=
  ⟨false, true, true, false, false, none, none, none, false⟩

/-- An argument list with no mode-implying input at all. -/
def emptyArgs : Args :=
  ⟨false, false, false, false, false, none, none, none, false⟩

/-- Counterexample to claim C7: an invocation with conflicting mode
flags (`--summary --detail`) is a usage error, but the process exits
with status 2 (argparse `parser.error`), not 1 as the claim states. -/
theorem usage_error_exit_code_counterexample :
    (main_run conflictingArgs [] "2024-01-01T00:00:00+00:00").exitCode = 2 ∧
    (main_run conflictingArgs [] "2024-01-01T00:00:00+00:00").exitCode ≠ 1 := by
  decide

/-- Claim C7 (amended): an invocation whose argument list fails
validation exits with code 2 (the argparse `parser.error` status) and
reports the message on the error stream; a validation error caught
after parsing exits with code 1 with the message on the error stream;
exit code 0 occurs exactly on success, with nothing on the error
stream. -/
theorem exit_codes_classified (a : Args) (db : DB) (now : String) :
    (∀ e, parse_arguments a = Except.error e →
      main_run a db now = ⟨2, db, some e⟩) ∧
    (∀ e, parse_arguments a = Except.ok Mode.add_entry →
      app_add_strike_entry db (a.count_to_add.getD 0) a.session_tag now =
        Except.error e →
      main_run a db now = ⟨1, db, some ("Error: " ++ e)⟩) ∧
    ((main_run a db now).exitCode = 0 ↔ (main_run a db now).stderr = none) ∧
    ((main_run a db now).exitCode = 0 ∨ (main_run a db now).exitCode = 1 ∨
      (main_run a db now).exitCode = 2) := by
  cases hp : parse_arguments a with
  | error e =>
    refine ⟨?_, ?_, ?_, ?_⟩
    · intro e' he'
      cases he'
      unfold main_run
      rw [hp]
    · intro e' hok _herr
      exact Except.noConfusion hok
    · unfold main_run
      rw [hp]
      simp
    · unfold main_run
      rw [hp]
      simp
  | ok m =>
    refine ⟨fun e he => Except.noConfusion he, ?_, ?_, ?_⟩
    · intro e hok herr
      cases hok
      unfold main_run
      rw [hp, herr]
    · unfold main_run
      rw [hp]
      cases m <;> try simp
      cases happ : app_add_strike_entry db (a.count_to_add.getD 0)
          a.session_tag now <;> simp
    · unfold main_run
      rw [hp]
      cases m <;> try simp
      cases happ : app_add_strike_entry db (a.count_to_add.getD 0)
          a.session_tag now <;> simp

/-- Witness for claim C7 (amended): the no-mode invocation is a usage
error reported on stderr with exit status 2, and an add invocation with
count 0 is a post-parse validation error reported on stderr with exit
status 1. -/
theorem exit_codes_classified_witness :
    main_run emptyArgs [] "2024-06-01T00:00:00+00:00" =
      ⟨2, [], some "<count_to_add> is required unless using --info, --count, --filter-tag, --summary, or --detail."⟩ ∧
    main_run (addArgs 0 none) [] "2024-06-01T00:00:00+00:00" =
      ⟨1, [], some ("Error: " ++ "Strike count must be a positive integer.")⟩ :=
  ⟨(exit_codes_classified emptyArgs [] "2024-06-01T00:00:00+00:00").1
    "<count_to_add> is required unless using --info, --count, --filter-tag, --summary, or --detail."
    rfl,
   (exit_codes_classified (addArgs 0 none) [] "2024-06-01T00:00:00+00:00").2.1
    "Strike count must be a positive integer." rfl rfl⟩

/-- Claim C8: with the detail flag set, parsing succeeds exactly when no
other mode flag is set, the add-entry positionals are absent, and an
explicit count flag comes with a truthy filter-tag value; in particular
a bare count flag without a filter tag is rejected, a filter-tag value
with or without the count flag is accepted, the group-by-date flag is
always accepted, and the positionals are never accepted. -/
theorem detail_mode_acceptance (a : Args) (hd : a.detail = true) :
    (parse_arguments a).isOk = true ↔
      (a.app_info = false ∧ a.summary = false ∧ a.count_to_add = none ∧
       a.session_tag = none ∧ (a.count = true → truthy a.filter_tag = true)) := by
  obtain ⟨c, s, d, bd, i, ft, cta, st, dbg⟩ := a
  simp only at hd
  subst hd
  cases i <;> cases s <;> cases c <;> cases cta <;> cases st <;>
    cases htf : truthy ft <;>
    simp [parse_arguments, Except.isOk, Except.toBool, pure, Except.pure,
      Bind.bind, Except.bind, htf]

/-- A detail invocation with a filter tag and an explicit count flag. -/
def detailFilterCountArgs : Args :=
  ⟨true, false, true, true, false, some "gym", none, none, false⟩

/-- Witness for claim C8: `--detail --count --by-date --filter-tag gym`
is accepted. -/
theorem detail_mode_acceptance_witness :
    (parse_arguments detailFilterCountArgs).isOk = true :=
  (detail_mode_acceptance detailFilterCountArgs rfl).mpr
    ⟨rfl, rfl, rfl, rfl, fun _ => rfl⟩

/-- A two-entry store with one untagged and one tagged entry, used to
exhibit the summary print order. -/
def summaryDemoDB : DB :=
  [⟨1, 5, "2024-01-01T00:00:00+00:00", none⟩,
   ⟨2, 2, "2024-01-01T01:00:00+00:00", some "a"⟩]

/-- Counterexample to claim C6: on a store with an untagged and a tagged
entry, `query_summary` prints the tagged group at position 1 and the
untagged group at position 2 — the untagged group comes last, not
first (the Python sort key `(t is None, t)` makes None the largest
key). -/
theorem summary_untagged_last_counterexample :
    query_summary_lines summaryDemoDB =
      ["Strike Summary:",
       "  Tag \x27a\x27: 2 strikes",
       "  Untagged: 5 strikes",
       "--------------------",
       "Grand Total: 7 strikes"] ∧
    (query_summary_lines summaryDemoDB).getD 1 "" ≠ "  Untagged: 5 strikes" := by
  decide

/-- Alphabetical order on strings used to state the summary layout. -/
def StrOrder (s t : String) : Prop := strLe s t = true

instance : DecidableRel StrOrder :=
  fun a b => inferInstanceAs (Decidable (_ = true))

instance : IsTotal String StrOrder :=
  ⟨fun a b => strLe_total a b⟩

instance : IsTrans String StrOrder :=
  ⟨fun _ _ _ h₁ h₂ => strLe_trans h₁ h₂⟩

instance : IsAntisymm (Option String) PySummaryOrder := by
  constructor
  intro a b h₁ h₂
  unfold PySummaryOrder pySummaryLe at h₁ h₂
  cases a <;> cases b <;> simp_all
  exact strLe_antisymm h₁ h₂

/-- The tagged group lines the spec describes: one line per distinct
stored tag, alphabetically ascending, each with that tag group sum. -/
def summaryTaggedLines (db : DB) : List String :=
  (List.insertionSort StrOrder ((db.filterMap (·.tag)).dedup)).map
    (fun tg => "  Tag \x27" ++ tg ++ "\x27: " ++
      toString (tagGroupSum db (some tg)) ++ " strikes")

/-- The untagged group line, present exactly when some entry is
untagged. -/
def summaryUntaggedLines (db : DB) : List String :=
  if none ∈ db.map (·.tag) then
    ["  Untagged: " ++ toString (tagGroupSum db none) ++ " strikes"]
  else []

theorem lookupCount_map (f : Option String → Int) :
    ∀ (ts : List (Option String)) (t₀ : Option String), t₀ ∈ ts →
      lookupCount (ts.map (fun t => (t, f t))) t₀ = f t₀ := by
  intro ts
  induction ts with
  | nil => intro t₀ h; cases h
  | cons t ts ih =>
    intro t₀ ht₀
    by_cases hteq : t = t₀
    · subst hteq
      unfold lookupCount
      rw [List.map_cons, List.find?_cons_of_pos _ (by simp)]
    · have ht₀' : t₀ ∈ ts := by
        rcases List.mem_cons.mp ht₀ with h | h
        · exact absurd h.symm hteq
        · exact h
      have hrec := ih t₀ ht₀'
      unfold lookupCount at hrec ⊢
      rw [List.map_cons, List.find?_cons_of_neg _ (by simp [hteq])]
      exact hrec

/-- The tag keys of `query_summary`, re-sorted by the Python key
`(t is None, t)`, are exactly the alphabetically sorted tagged keys
followed by the untagged key when present. -/
theorem summary_sorted_keys (db : DB) :
    List.insertionSort PySummaryOrder
        (List.insertionSort RawTagOrder ((db.map (·.tag)).dedup)) =
      (List.insertionSort StrOrder ((db.filterMap (·.tag)).dedup)).map some ++
        (if none ∈ db.map (·.tag) then [none] else []) := by
  set ts := List.insertionSort RawTagOrder ((db.map (·.tag)).dedup) with hts
  set tagged := List.insertionSort StrOrder ((db.filterMap (·.tag)).dedup) with htg
  set tail := (if none ∈ db.map (·.tag) then [none]
    else ([] : List (Option String))) with htl
  have hmem_ts : ∀ x, x ∈ ts ↔ x ∈ db.map (·.tag) := by
    intro x
    rw [hts, List.mem_insertionSort, List.mem_dedup]
  have hts_nodup : ts.Nodup := summary_tags_nodup db
  have htagged_nodup : tagged.Nodup :=
    ((List.perm_insertionSort StrOrder _).symm).nodup (List.nodup_dedup _)
  have hmem_tagged : ∀ y, y ∈ tagged ↔ some y ∈ db.map (·.tag) := by
    intro y
    rw [htg, List.mem_insertionSort, List.mem_dedup, List.mem_filterMap]
    constructor
    · rintro ⟨e, he, htag⟩
      exact List.mem_map.mpr ⟨e, he, htag⟩
    · intro hm
      rcases List.mem_map.mp hm with ⟨e, he, htag⟩
      exact ⟨e, he, htag⟩
  have hRnodup : (tagged.map some ++ tail).Nodup := by
    rw [List.nodup_append]
    refine ⟨List.Nodup.map (Option.some_injective String) htagged_nodup, ?_, ?_⟩
    · rw [htl]
      split <;> simp
    · intro x hx hx'
      rcases List.mem_map.mp hx with ⟨z, _, rfl⟩
      rw [htl] at hx'
      revert hx'
      split
      · intro h
        rw [List.mem_singleton] at h
        cases h
      · intro h
        cases h
  have hRmem : ∀ x, x ∈ tagged.map some ++ tail ↔ x ∈ db.map (·.tag) := by
    intro x
    rw [List.mem_append]
    cases x with
    | none =>
      constructor
      · intro h
        rcases h with h | h
        · rcases List.mem_map.mp h with ⟨z, _, hz⟩
          cases hz
        · rw [htl] at h
          revert h
          split
          · intro _
            assumption
          · intro h
            cases h
      · intro h
        right
        rw [htl, if_pos h]
        simp
    | some y =>
      constructor
      · intro h
        rcases h with h | h
        · obtain ⟨z, hz, hzz⟩ := List.mem_map.mp h
          obtain rfl : z = y := Option.some_inj.mp hzz
          exact (hmem_tagged _).mp hz
        · rw [htl] at h
          revert h
          split
          · intro h
            rw [List.mem_singleton] at h
            cases h
          · intro h
            cases h
      · intro h
        left
        exact List.mem_map.mpr ⟨y, (hmem_tagged y).mpr h, rfl⟩
  have hperm : List.Perm (List.insertionSort PySummaryOrder ts)
      (tagged.map some ++ tail) :=
    (List.perm_insertionSort _ ts).trans
      ((List.perm_ext_iff_of_nodup hts_nodup hRnodup).mpr
        (fun a => (hmem_ts a).trans (hRmem a).symm))
  have hsorted₂ : List.Sorted PySummaryOrder (tagged.map some ++ tail) := by
    rw [List.Sorted, List.pairwise_append]
    refine ⟨?_, ?_, ?_⟩
    · exact List.Pairwise.map some (fun a b h => h)
        (List.sorted_insertionSort StrOrder _)
    · rw [htl]
      split <;> simp
    · intro a ha b hb
      rcases List.mem_map.mp ha with ⟨z, _, rfl⟩
      rw [htl] at hb
      revert hb
      split
      · intro hb
        rw [List.mem_singleton] at hb
        rw [hb]
        rfl
      · intro hb
        cases hb
  exact List.eq_of_perm_of_sorted hperm
    (List.sorted_insertionSort PySummaryOrder ts) hsorted₂

/-- Claim C6 (amended): on a non-empty store `query_summary` prints the
header, then the tagged groups in alphabetical order, then the untagged
group last (not first: the Python sort key `(t is None, t)` sorts the
None key after every string key), then the separator and a grand total
line showing `total(None)`; with zero entries it prints only the
no-strikes message. -/
theorem query_summary_layout (db : DB) :
    (db = [] → query_summary_lines db = ["No strikes recorded yet."]) ∧
    (db ≠ [] → query_summary_lines db =
      "Strike Summary:" ::
        (summaryTaggedLines db ++ summaryUntaggedLines db) ++
        ["--------------------",
         "Grand Total: " ++ toString (get_total_strikes db none) ++ " strikes"]) := by
  constructor
  · intro h
    subst h
    rfl
  · intro hne
    have hkeys_ne : (get_summary_by_tag db).1 ≠ [] := by
      cases db with
      | nil => exact absurd rfl hne
      | cons e es =>
        have hts : e.tag ∈ List.insertionSort RawTagOrder
            (((e :: es).map (·.tag)).dedup) :=
          summary_tags_cover (e :: es) e (by simp)
        intro hc
        unfold get_summary_by_tag at hc
        simp only at hc
        rw [List.map_eq_nil_iff] at hc
        rw [hc] at hts
        cases hts
    have hcond : ((get_summary_by_tag db).1.isEmpty &&
        ((get_summary_by_tag db).2 == 0)) = false := by
      have h1 : (get_summary_by_tag db).1.isEmpty = false := by
        cases hL : (get_summary_by_tag db).1 with
        | nil => exact absurd hL hkeys_ne
        | cons x xs => rfl
      rw [h1, Bool.false_and]
    have hmap1 : (get_summary_by_tag db).1.map (fun p => p.1) =
        List.insertionSort RawTagOrder ((db.map (·.tag)).dedup) := by
      unfold get_summary_by_tag
      simp only [List.map_map]
      have hcomp : ((fun p : Option String × Int => p.1) ∘
          fun t => (t, tagGroupSum db t)) = fun t => t := rfl
      rw [hcomp]
      simp
    have hA : (List.insertionSort StrOrder ((db.filterMap (·.tag)).dedup)).map
        ((summaryGroupLine (get_summary_by_tag db).1) ∘ some) =
        summaryTaggedLines db := by
      unfold summaryTaggedLines
      apply List.map_congr_left
      intro tg htg
      have h1 : tg ∈ db.filterMap (·.tag) :=
        List.mem_dedup.mp ((List.mem_insertionSort _).mp htg)
      obtain ⟨e, he, htag⟩ := List.mem_filterMap.mp h1
      have h2 : some tg ∈ db.map (·.tag) := List.mem_map.mpr ⟨e, he, htag⟩
      have hmem : some tg ∈ List.insertionSort RawTagOrder
          ((db.map (·.tag)).dedup) :=
        (List.mem_insertionSort _).mpr (List.mem_dedup.mpr h2)
      have hlk : lookupCount (get_summary_by_tag db).1 (some tg) =
          tagGroupSum db (some tg) := by
        unfold get_summary_by_tag
        simp only
        exact lookupCount_map (tagGroupSum db) _ (some tg) hmem
      simp only [Function.comp, summaryGroupLine]
      rw [hlk]
    have hB : (if none ∈ db.map (·.tag) then [(none : Option String)] else []).map
        (summaryGroupLine (get_summary_by_tag db).1) =
        summaryUntaggedLines db := by
      unfold summaryUntaggedLines
      by_cases hc : none ∈ db.map (·.tag)
      · rw [if_pos hc, if_pos hc]
        simp only [List.map_cons, List.map_nil]
        have hmem : (none : Option String) ∈ List.insertionSort RawTagOrder
            ((db.map (·.tag)).dedup) :=
          (List.mem_insertionSort _).mpr (List.mem_dedup.mpr hc)
        have hlk : lookupCount (get_summary_by_tag db).1 none =
            tagGroupSum db none := by
          unfold get_summary_by_tag
          simp only
          exact lookupCount_map (tagGroupSum db) _ none hmem
        simp only [summaryGroupLine]
        rw [hlk]
      · rw [if_neg hc, if_neg hc]
        rfl
    have hC : (get_summary_by_tag db).2 = get_total_strikes db none :=
      grand_total_eq_total db
    simp only [query_summary_lines]
    rw [if_neg (ne_true_of_eq_false hcond)]
    rw [hmap1, summary_sorted_keys db, List.map_append, List.map_map]
    rw [hA, hB, hC]

/-- Witness for claim C6 (amended) on the two-entry demo store. -/
theorem query_summary_layout_witness :
    query_summary_lines summaryDemoDB =
      "Strike Summary:" ::
        (summaryTaggedLines summaryDemoDB ++ summaryUntaggedLines summaryDemoDB) ++
        ["--------------------",
         "Grand Total: " ++ toString (get_total_strikes summaryDemoDB none) ++
           " strikes"] :=
  (query_summary_layout summaryDemoDB).2 (by decide)
